import Mathlib

/-!
Verification of the raw2exr pipeline (src/main.rs): a RAW sensor capture is
demosaiced by neighbor averaging, normalized by per-channel white levels,
given chromaticity primaries derived by probing the camera-to-XYZ matrix,
and packaged with crop bounds into an output image description.

Floating point (`f32`) arithmetic is modelled exactly over `ℚ`. Panics and
`unwrap`s are modelled by `Option` (a `none` result means the process
aborts and nothing is written).
-/

namespace Raw2Exr

/-- The decoded RAW image, as produced by the `rawloader` collaborator and
consumed by `main`: dimensions, flat integer sample buffer, per-channel
white levels, the CFA oracle `color_at : (row, col) → filter index`, and
the four crop margins in order top, right, bottom, left. -/
structure RawImage where
  width : Nat
  height : Nat
  data : List Nat
  whitelevels : List ℚ
  cfa : Nat → Nat → Nat
  crops : Fin 4 → Nat

/-- `let red_max = image.whitelevels[0] as f32` (main.rs line 33). -/
def RawImage.red_max (img : RawImage) : ℚ := img.whitelevels.getD 0 0

/-- `let green_max = image.whitelevels[1] as f32` (main.rs line 34). -/
def RawImage.green_max (img : RawImage) : ℚ := img.whitelevels.getD 1 0

/-- `let blue_max = image.whitelevels[2] as f32` (main.rs line 35). -/
def RawImage.blue_max (img : RawImage) : ℚ := img.whitelevels.getD 2 0

/-- The `adjacent_pixels` array built at main.rs lines 54-103, flattened in
order (the `None` slots of absent neighbors disappear, as under
`.into_iter().flatten()` at line 115). Each present entry carries the raw
sample value read at the guarded buffer index and the neighbor's own
`(x, y)` coordinate, exactly as the source stores them. -/
def adjacent_pixels (img : RawImage) (index x y : Nat) : List (ℚ × Nat × Nat) :=
  (if x ≠ 0 ∧ y ≠ 0 then
    [(((img.data.getD (index - img.width - 1) 0 : Nat) : ℚ), x - 1, y - 1)] else []) ++
  (if y ≠ 0 then
    [(((img.data.getD (index - img.width) 0 : Nat) : ℚ), x, y - 1)] else []) ++
  (if x ≠ img.width - 1 ∧ y ≠ 0 then
    [(((img.data.getD (index - img.width + 1) 0 : Nat) : ℚ), x + 1, y - 1)] else []) ++
  (if x ≠ 0 then
    [(((img.data.getD (index - 1) 0 : Nat) : ℚ), x - 1, y)] else []) ++
  (if x ≠ img.width - 1 then
    [(((img.data.getD (index + 1) 0 : Nat) : ℚ), x + 1, y)] else []) ++
  (if x ≠ 0 ∧ y ≠ img.height - 1 then
    [(((img.data.getD (index + img.width - 1) 0 : Nat) : ℚ), x - 1, y + 1)] else []) ++
  (if y ≠ img.height - 1 then
    [(((img.data.getD (index + img.width) 0 : Nat) : ℚ), x, y + 1)] else []) ++
  (if x ≠ img.width - 1 ∧ y ≠ img.height - 1 then
    [(((img.data.getD (index + img.width + 1) 0 : Nat) : ℚ), x + 1, y + 1)] else [])

/-- The neighbor classification loop of main.rs lines 115-134: fold over the
present neighbors, dispatching on `image.cfa.color_at(y, x)` into the three
`(sum, count)` accumulators; a filter index outside {0,1,2} hits the
`panic!()` arm, modelled as `none`. Result tuple order:
(red_sum, green_sum, blue_sum, red_count, green_count, blue_count). -/
def classify (img : RawImage) : List (ℚ × Nat × Nat) → Option (ℚ × ℚ × ℚ × Nat × Nat × Nat)
  | [] => some (0, 0, 0, 0, 0, 0)
  | (value, x, y) :: rest =>
    (classify img rest).bind fun t =>
      let rs := t.1; let gs := t.2.1; let bs := t.2.2.1
      let rc := t.2.2.2.1; let gc := t.2.2.2.2.1; let bc := t.2.2.2.2.2
      if img.cfa y x = 0 then some (rs + value, gs, bs, rc + 1, gc, bc)
      else if img.cfa y x = 1 then some (rs, gs + value, bs, rc, gc + 1, bc)
      else if img.cfa y x = 2 then some (rs, gs, bs + value, rc, gc, bc + 1)
      else none

/-- One iteration of the demosaic scan (main.rs lines 53-171) for the pixel
at `(x, y)`: gather neighbors, classify them by CFA color, form
`sum / count / white_level` averages, then select per the pixel's own CFA
color — the native channel takes `data[index] / max` directly, the other
two take the averages. Either `panic!()` arm yields `none`. -/
def demosaicPixel (img : RawImage) (x y : Nat) : Option (ℚ × ℚ × ℚ) :=
  let index := y * img.width + x
  (classify img (adjacent_pixels img index x y)).bind fun t =>
    let red_sum := t.1; let green_sum := t.2.1; let blue_sum := t.2.2.1
    let red_count := t.2.2.2.1; let green_count := t.2.2.2.2.1; let blue_count := t.2.2.2.2.2
    let red_avg := red_sum / (red_count : ℚ) / img.red_max
    let green_avg := green_sum / (green_count : ℚ) / img.green_max
    let blue_avg := blue_sum / (blue_count : ℚ) / img.blue_max
    if img.cfa y x = 0 then
      some (((img.data.getD index 0 : Nat) : ℚ) / img.red_max, green_avg, blue_avg)
    else if img.cfa y x = 1 then
      some (red_avg, ((img.data.getD index 0 : Nat) : ℚ) / img.green_max, blue_avg)
    else if img.cfa y x = 2 then
      some (red_avg, green_avg, ((img.data.getD index 0 : Nat) : ℚ) / img.blue_max)
    else none

/-- Run an `Option`-valued function over a list of indices, collecting the
results in order and aborting on the first `none` — the shape of the
`for (index, (y, x)) in … .enumerate()` push loop with its `panic!()` arms. -/
def optList (f : Nat → Option (ℚ × ℚ × ℚ)) : List Nat → Option (List (ℚ × ℚ × ℚ))
  | [] => some []
  | i :: is =>
    (f i).bind fun a => (optList f is).bind fun tl => some (a :: tl)

/-- The full demosaic scan of main.rs lines 48-172: iterate
`(0..height) × (0..width)` in row-major order (linear index `i` visits pixel
`(i % width, i / width)`), demosaic each pixel, and collect the per-pixel
`(red, green, blue)` triples pushed into the three output vectors. -/
def demosaic (img : RawImage) : Option (List (ℚ × ℚ × ℚ)) :=
  optList (fun i => demosaicPixel img (i % img.width) (i / img.width))
    (List.range (img.width * img.height))

/-- The 3×3 `cam_to_xyz` matrix built at main.rs lines 39-41 from the
camera matrix entries (row-major constructor arguments). -/
structure Matrix3x3f where
  m00 : ℚ
  m01 : ℚ
  m02 : ℚ
  m10 : ℚ
  m11 : ℚ
  m12 : ℚ
  m20 : ℚ
  m21 : ℚ
  m22 : ℚ

/-- nalgebra matrix-vector product `cam_to_xyz * point` for a 3×1 column. -/
def matVec (m : Matrix3x3f) (v : ℚ × ℚ × ℚ) : ℚ × ℚ × ℚ :=
  (m.m00 * v.1 + m.m01 * v.2.1 + m.m02 * v.2.2,
   m.m10 * v.1 + m.m11 * v.2.1 + m.m12 * v.2.2,
   m.m20 * v.1 + m.m21 * v.2.1 + m.m22 * v.2.2)

/-- Modelled from the spec: the external color-space conversion collaborator
(`CIEXYZCoords::try_xyy` of the `color_stuff` crate, not part of this
repository). It maps a tristimulus triple `(X, Y, Z)` to chromaticity
coordinates `(x, y) = (X/(X+Y+Z), Y/(X+Y+Z))` plus the luminance `Y`, and
fails exactly when the tristimulus components sum to zero. -/
def tryXyy (v : ℚ × ℚ × ℚ) : Option ((ℚ × ℚ) × ℚ) :=
  if v.1 + v.2.1 + v.2.2 = 0 then none
  else some ((v.1 / (v.1 + v.2.1 + v.2.2), v.2.1 / (v.1 + v.2.1 + v.2.2)), v.2.1)

/-- The four chromaticity coordinate pairs attached to the output
(`exr::meta::attribute::Chromaticities`, main.rs lines 216-221). -/
structure Chromaticities where
  red : ℚ × ℚ
  green : ℚ × ℚ
  blue : ℚ × ℚ
  white : ℚ × ℚ
deriving DecidableEq

/-- The chromaticity probing of main.rs lines 177-195: build the four probe
columns (red_max,0,0), (0,green_max,0), (0,0,blue_max),
(red_max,green_max,blue_max), push each through `cam_to_xyz`, convert with
`try_xyy` (each `.unwrap()` modelled as propagating `none`), and keep the
2D `coords` of each result as the red/green/blue/white primaries. -/
def derivePrimaries (cam_to_xyz : Matrix3x3f) (red_max green_max blue_max : ℚ) :
    Option Chromaticities :=
  let red_point : ℚ × ℚ × ℚ := (red_max, 0, 0)
  let green_point : ℚ × ℚ × ℚ := (0, green_max, 0)
  let blue_point : ℚ × ℚ × ℚ := (0, 0, blue_max)
  let white_point : ℚ × ℚ × ℚ := (red_max, green_max, blue_max)
  (tryXyy (matVec cam_to_xyz red_point)).bind fun red_xyy =>
    (tryXyy (matVec cam_to_xyz green_point)).bind fun green_xyy =>
      (tryXyy (matVec cam_to_xyz blue_point)).bind fun blue_xyy =>
        (tryXyy (matVec cam_to_xyz white_point)).bind fun white_xyy =>
          some { red := red_xyy.1, green := green_xyy.1
                 blue := blue_xyy.1, white := white_xyy.1 }

/-- `exr::prelude::IntegerBounds`: a display-window rectangle with a signed
position and an unsigned size. -/
structure IntegerBounds where
  position : Int × Int
  size : Nat × Nat
deriving DecidableEq

/-- `crops_size_to_bounds` (main.rs lines 226-235): margins in order top,
right, bottom, left become position `(left, top)` and size
`(width - left - right, height - top - bottom)` (usize arithmetic). -/
def crops_size_to_bounds (crops : Fin 4 → Nat) (width height : Nat) : IntegerBounds :=
  let top := crops 0
  let right := crops 1
  let bottom := crops 2
  let left := crops 3
  { position := ((left : Int), (top : Int)),
    size := (width - left - right, height - top - bottom) }

/-- The per-pixel lookup closure handed to `SpecificChannels::rgb`
(main.rs lines 197-203): reads each channel vector at
`width * pos.y() + pos.x()`. -/
def pixels_fn (width : Nat) (red green blue : List ℚ) (pos : Nat × Nat) : ℚ × ℚ × ℚ :=
  (red.getD (width * pos.2 + pos.1) 0,
   green.getD (width * pos.2 + pos.1) 0,
   blue.getD (width * pos.2 + pos.1) 0)

/-- Everything `main` hands to the EXR writing collaborator at lines
205-223: dimensions, the pixel grid, the fixed aspect ratio 1.0, the
display window from the crop margins, and the probed chromaticities. -/
structure OutputFile where
  dimensions : Nat × Nat
  pixels : List (ℚ × ℚ × ℚ)
  pixel_aspect : ℚ
  display_window : IntegerBounds
  chromaticities : Chromaticities
deriving DecidableEq

/-- The pipeline of `main` (lines 28-224) after decoding: demosaic the whole
frame (a `panic!()` aborts), derive the primaries (a failed `.unwrap()`
aborts), compute the display window, and only then assemble what is written
to the output file. `none` means the process aborted with no file written. -/
def pipeline (img : RawImage) (cam_to_xyz : Matrix3x3f) : Option OutputFile :=
  (demosaic img).bind fun pixels =>
    (derivePrimaries cam_to_xyz img.red_max img.green_max img.blue_max).bind fun chroma =>
      some { dimensions := (img.width, img.height)
             pixels := pixels
             pixel_aspect := 1
             display_window := crops_size_to_bounds img.crops img.width img.height
             chromaticities := chroma }

/-! ### Statement-side vocabulary

Definitions below phrase the spec's description of the algorithm (partition
of neighbors by filter color, arithmetic mean, per-channel white level) so
that the theorems can compare the code against it. -/

/-- The neighbor list sampled for pixel `(x, y)` during the scan (the
linear index the loop carries is `y * width + x`). -/
def neighbors (img : RawImage) (x y : Nat) : List (ℚ × Nat × Nat) :=
  adjacent_pixels img (y * img.width + x) x y

/-- The neighbors of the list `ps` whose CFA filter color is `c` —
the spec's "partition the neighbor samples by filter color". -/
def colorFilter (img : RawImage) (c : Nat) (ps : List (ℚ × Nat × Nat)) :
    List (ℚ × Nat × Nat) :=
  ps.filter (fun p => img.cfa p.2.2 p.2.1 = c)

/-- Sum of the samples of the `c`-colored neighbors. -/
def colorSum (img : RawImage) (c : Nat) (ps : List (ℚ × Nat × Nat)) : ℚ :=
  ((colorFilter img c ps).map (fun p => p.1)).sum

/-- Number of `c`-colored neighbors — the spec's "count in denominator". -/
def colorCount (img : RawImage) (c : Nat) (ps : List (ℚ × Nat × Nat)) : Nat :=
  (colorFilter img c ps).length

/-- Select the channel of a pixel triple by filter color index. -/
def channelOf (t : ℚ × ℚ × ℚ) (c : Nat) : ℚ :=
  if c = 0 then t.1 else if c = 1 then t.2.1 else t.2.2

/-- The white level belonging to filter color `c`. -/
def whiteLevelOf (img : RawImage) (c : Nat) : ℚ :=
  if c = 0 then img.red_max else if c = 1 then img.green_max else img.blue_max

/-- The coordinates of the neighbors sampled for pixel `(x, y)`. -/
def neighborCoords (img : RawImage) (x y : Nat) : List (Nat × Nat) :=
  (neighbors img x y).map (fun p => p.2)

/-- The spec's "raw quantity" for channel `c` at pixel `(x, y)`: the
pixel's own sample when `c` is the native color, otherwise the mean of the
`c`-colored neighbor samples. -/
def rawQuantity (img : RawImage) (x y c : Nat) : ℚ :=
  if c = img.cfa y x then ((img.data.getD (y * img.width + x) 0 : Nat) : ℚ)
  else colorSum img c (neighbors img x y) /
    ((colorCount img c (neighbors img x y) : Nat) : ℚ)

/-- Example margins (top, right, bottom, left) = (1, 2, 3, 4). -/
def cropsEx : Fin 4 → Nat := fun i => (i : Nat) + 1

/-- The 3×3 identity camera matrix. -/
def identityM : Matrix3x3f := ⟨1, 0, 0, 0, 1, 0, 0, 0, 1⟩

/-- The all-zero camera matrix (every probe degenerates). -/
def zeroM : Matrix3x3f := ⟨0, 0, 0, 0, 0, 0, 0, 0, 0⟩

/-- A standard 2×2-periodic Bayer oracle (R G / G B), `(row, col) ↦ color`. -/
def bayerRGGB : Nat → Nat → Nat := fun y x =>
  if y % 2 = 0 then (if x % 2 = 0 then 0 else 1)
  else (if x % 2 = 0 then 1 else 2)

/-- A degenerate 1×1 sensor capture. -/
def cimg1 : RawImage :=
  { width := 1, height := 1, data := [7], whitelevels := [1, 1, 1],
    cfa := bayerRGGB, crops := fun _ => 0 }

/-- A 2×2 RGGB sensor capture with samples 1 2 / 3 4 and unit white levels. -/
def cimg2 : RawImage :=
  { width := 2, height := 2, data := [1, 2, 3, 4], whitelevels := [1, 1, 1],
    cfa := bayerRGGB, crops := fun _ => 0 }

/-- A 1×1 capture whose CFA oracle breaks the contract (filter index 5). -/
def cimgBad : RawImage :=
  { width := 1, height := 1, data := [0], whitelevels := [1, 1, 1],
    cfa := fun _ _ => 5, crops := fun _ => 0 }

/-! ### Basic lemmas about the neighbor list -/

theorem mem_ite_singleton {α : Type} {c : Prop} [Decidable c] {a p : α} :
    p ∈ (if c then [a] else []) ↔ c ∧ p = a := by
  split_ifs with h <;> simp [h]

/-- Every sampled neighbor coordinate stays inside the image. -/
theorem adjacent_pixels_coord_lt (img : RawImage) (index x y : Nat)
    (hx : x < img.width) (hy : y < img.height) :
    ∀ p ∈ adjacent_pixels img index x y, p.2.1 < img.width ∧ p.2.2 < img.height := by
  intro p hp
  simp only [adjacent_pixels, List.mem_append, mem_ite_singleton] at hp
  rcases hp with (((((((⟨⟨h1, h2⟩, rfl⟩ | ⟨h, rfl⟩) | ⟨⟨h1, h2⟩, rfl⟩) | ⟨h, rfl⟩) |
    ⟨h, rfl⟩) | ⟨⟨h1, h2⟩, rfl⟩) | ⟨h, rfl⟩) | ⟨⟨h1, h2⟩, rfl⟩) <;> simp <;> omega

/-- Every sampled neighbor value is a cast sensor sample, hence non-negative. -/
theorem adjacent_pixels_value_nonneg (img : RawImage) (index x y : Nat) :
    ∀ p ∈ adjacent_pixels img index x y, 0 ≤ p.1 := by
  intro p hp
  simp only [adjacent_pixels, List.mem_append, mem_ite_singleton] at hp
  rcases hp with (((((((⟨_, rfl⟩ | ⟨_, rfl⟩) | ⟨_, rfl⟩) | ⟨_, rfl⟩) | ⟨_, rfl⟩) |
    ⟨_, rfl⟩) | ⟨_, rfl⟩) | ⟨_, rfl⟩) <;> exact Nat.cast_nonneg _

/-! ### The classification loop versus the color partition -/

theorem colorSum_cons (img : RawImage) (c : Nat) (value : ℚ) (qx qy : Nat)
    (rest : List (ℚ × Nat × Nat)) :
    colorSum img c ((value, qx, qy) :: rest) =
      if img.cfa qy qx = c then value + colorSum img c rest else colorSum img c rest := by
  simp only [colorSum, colorFilter, List.filter_cons]
  split_ifs with h <;> simp_all

theorem colorCount_cons (img : RawImage) (c : Nat) (value : ℚ) (qx qy : Nat)
    (rest : List (ℚ × Nat × Nat)) :
    colorCount img c ((value, qx, qy) :: rest) =
      if img.cfa qy qx = c then colorCount img c rest + 1 else colorCount img c rest := by
  simp only [colorCount, colorFilter, List.filter_cons]
  split_ifs with h <;> simp_all

/-- When every entry carries a recognized filter color, the classification
loop computes exactly the per-color partition sums and counts. -/
theorem classify_eq_of_colors (img : RawImage) (ps : List (ℚ × Nat × Nat))
    (h : ∀ p ∈ ps, img.cfa p.2.2 p.2.1 < 3) :
    classify img ps = some (colorSum img 0 ps, colorSum img 1 ps, colorSum img 2 ps,
      colorCount img 0 ps, colorCount img 1 ps, colorCount img 2 ps) := by
  induction ps with
  | nil => simp [classify, colorSum, colorCount, colorFilter]
  | cons q rest ih =>
    obtain ⟨value, qx, qy⟩ := q
    have hq : img.cfa qy qx < 3 := by
      have := h (value, qx, qy) (List.mem_cons_self _ _)
      simpa using this
    have hrest := fun p hp => h p (List.mem_cons_of_mem _ hp)
    rw [classify, ih hrest]
    rcases hc : img.cfa qy qx with _ | _ | _ | n
    · simp [hc, colorSum_cons, colorCount_cons, add_comm]
    · simp [hc, colorSum_cons, colorCount_cons, add_comm]
    · simp [hc, colorSum_cons, colorCount_cons, add_comm]
    · omega

/-- If the classification loop completed, every entry it saw carried a
recognized filter color (otherwise the `panic!()` arm would have fired). -/
theorem classify_colors_lt (img : RawImage) (ps : List (ℚ × Nat × Nat))
    (t : ℚ × ℚ × ℚ × Nat × Nat × Nat) (h : classify img ps = some t) :
    ∀ p ∈ ps, img.cfa p.2.2 p.2.1 < 3 := by
  induction ps generalizing t with
  | nil => simp
  | cons q rest ih =>
    obtain ⟨value, qx, qy⟩ := q
    rw [classify] at h
    obtain ⟨t', ht', h2⟩ := Option.bind_eq_some.mp h
    intro p hp
    rcases List.mem_cons.mp hp with rfl | hp'
    · simp only []
      by_contra hge
      push_neg at hge
      rw [if_neg (by omega), if_neg (by omega), if_neg (by omega)] at h2
      exact Option.noConfusion h2
    · exact ih t' ht' p hp'

/-- Sums produced by the classification loop are non-negative when all the
classified sample values are. -/
theorem colorSum_nonneg (img : RawImage) (c : Nat) (ps : List (ℚ × Nat × Nat))
    (h : ∀ p ∈ ps, 0 ≤ p.1) : 0 ≤ colorSum img c ps := by
  apply List.sum_nonneg
  intro a ha
  obtain ⟨p, hp, rfl⟩ := List.mem_map.mp ha
  exact h p (List.mem_of_mem_filter hp)

/-! ### The scan collector -/

theorem optList_length (f : Nat → Option (ℚ × ℚ × ℚ)) (l : List Nat)
    (r : List (ℚ × ℚ × ℚ)) (h : optList f l = some r) : r.length = l.length := by
  induction l generalizing r with
  | nil =>
    rw [optList] at h
    cases h
    rfl
  | cons i is ih =>
    rw [optList] at h
    obtain ⟨a, _, h2⟩ := Option.bind_eq_some.mp h
    obtain ⟨tl, htl, h3⟩ := Option.bind_eq_some.mp h2
    cases h3
    simp [ih tl htl]

theorem optList_getD (f : Nat → Option (ℚ × ℚ × ℚ)) (l : List Nat)
    (r : List (ℚ × ℚ × ℚ)) (h : optList f l = some r) :
    ∀ k, k < l.length → f (l.getD k 0) = some (r.getD k (0, 0, 0)) := by
  induction l generalizing r with
  | nil => intro k hk; simp at hk
  | cons i is ih =>
    rw [optList] at h
    obtain ⟨a, ha, h2⟩ := Option.bind_eq_some.mp h
    obtain ⟨tl, htl, h3⟩ := Option.bind_eq_some.mp h2
    cases h3
    intro k hk
    cases k with
    | zero => simpa using ha
    | succ k' =>
      simp only [List.getD_cons_succ]
      exact ih tl htl k' (by simpa using hk)

theorem optList_eq_none_of_mem (f : Nat → Option (ℚ × ℚ × ℚ)) (l : List Nat)
    (i : Nat) (hi : i ∈ l) (hni : f i = none) : optList f l = none := by
  induction l with
  | nil => simp at hi
  | cons j is ih =>
    rw [optList]
    rcases List.mem_cons.mp hi with rfl | hi'
    · simp [hni]
    · rcases hfj : f j with _ | a
      · rfl
      · simp [ih hi']

theorem optList_isSome (f : Nat → Option (ℚ × ℚ × ℚ)) (l : List Nat)
    (h : ∀ i ∈ l, (f i).isSome) : (optList f l).isSome := by
  induction l with
  | nil => simp [optList]
  | cons i is ih =>
    obtain ⟨a, ha⟩ := Option.isSome_iff_exists.mp (h i (List.mem_cons_self _ _))
    have hrest := ih fun j hj => h j (List.mem_cons_of_mem _ hj)
    obtain ⟨tl, htl⟩ := Option.isSome_iff_exists.mp hrest
    simp [optList, ha, htl]

/-- Row-major index decoding: the linear index `y * w + x` of an in-bounds
pixel is in range and decodes back to `(x, y)`. -/
theorem rowmajor_decode {w h x y : Nat} (hx : x < w) (hy : y < h) :
    (y * w + x) % w = x ∧ (y * w + x) / w = y ∧ y * w + x < w * h := by
  have hw : 0 < w := Nat.pos_of_ne_zero (by omega)
  refine ⟨?_, ?_, ?_⟩
  · rw [Nat.mul_comm y w, Nat.mul_add_mod, Nat.mod_eq_of_lt hx]
  · rw [Nat.mul_comm y w, Nat.mul_add_div hw, Nat.div_eq_of_lt hx, Nat.add_zero]
  · calc y * w + x < (y + 1) * w := by rw [Nat.succ_mul]; omega
      _ ≤ h * w := Nat.mul_le_mul_right w hy
      _ = w * h := Nat.mul_comm h w

/-- If the whole scan succeeded, the pixel at `(x, y)` succeeded and its
triple sits at linear index `y * width + x` of the collected grid. -/
theorem demosaic_pixel_at (img : RawImage) (l : List (ℚ × ℚ × ℚ)) (x y : Nat)
    (hx : x < img.width) (hy : y < img.height) (h : demosaic img = some l) :
    demosaicPixel img x y = some (l.getD (y * img.width + x) (0, 0, 0)) := by
  rw [demosaic] at h
  obtain ⟨hmod, hdiv, hlt⟩ := rowmajor_decode hx hy
  have hk := optList_getD _ _ _ h (y * img.width + x) (by simpa using hlt)
  rw [List.getD_eq_getElem _ _ (by simpa using hlt), List.getElem_range] at hk
  rw [hmod, hdiv] at hk
  exact hk

theorem demosaic_length (img : RawImage) (l : List (ℚ × ℚ × ℚ))
    (h : demosaic img = some l) : l.length = img.width * img.height := by
  rw [demosaic] at h
  simpa using optList_length _ _ _ h

/-- Elimination form of one demosaic iteration: a successful pixel scan
certifies every queried filter color was recognized, and its value is the
native/averaged triple prescribed by its own filter color. -/
theorem demosaicPixel_some (img : RawImage) (x y : Nat) (v : ℚ × ℚ × ℚ)
    (h : demosaicPixel img x y = some v) :
    (∀ p ∈ neighbors img x y, img.cfa p.2.2 p.2.1 < 3) ∧ img.cfa y x < 3 ∧
    (img.cfa y x = 0 → v =
      (((img.data.getD (y * img.width + x) 0 : Nat) : ℚ) / img.red_max,
       colorSum img 1 (neighbors img x y) / (colorCount img 1 (neighbors img x y) : ℚ) /
         img.green_max,
       colorSum img 2 (neighbors img x y) / (colorCount img 2 (neighbors img x y) : ℚ) /
         img.blue_max)) ∧
    (img.cfa y x = 1 → v =
      (colorSum img 0 (neighbors img x y) / (colorCount img 0 (neighbors img x y) : ℚ) /
         img.red_max,
       ((img.data.getD (y * img.width + x) 0 : Nat) : ℚ) / img.green_max,
       colorSum img 2 (neighbors img x y) / (colorCount img 2 (neighbors img x y) : ℚ) /
         img.blue_max)) ∧
    (img.cfa y x = 2 → v =
      (colorSum img 0 (neighbors img x y) / (colorCount img 0 (neighbors img x y) : ℚ) /
         img.red_max,
       colorSum img 1 (neighbors img x y) / (colorCount img 1 (neighbors img x y) : ℚ) /
         img.green_max,
       ((img.data.getD (y * img.width + x) 0 : Nat) : ℚ) / img.blue_max)) := by
  simp only [demosaicPixel] at h
  obtain ⟨t, ht, hv⟩ := Option.bind_eq_some.mp h
  have hA := classify_colors_lt _ _ _ ht
  rw [classify_eq_of_colors _ _ hA] at ht
  cases ht
  refine ⟨hA, ?_, ?_, ?_, ?_⟩
  · by_contra hge
    push_neg at hge
    rw [if_neg (by omega), if_neg (by omega), if_neg (by omega)] at hv
    exact Option.noConfusion hv
  · intro hc
    rw [if_pos hc] at hv
    cases hv
    rfl
  · intro hc
    rw [if_neg (by omega), if_pos hc] at hv
    cases hv
    rfl
  · intro hc
    rw [if_neg (by omega), if_neg (by omega), if_pos hc] at hv
    cases hv
    rfl

/-! ### Claim C1: demosaicer output -/

/-- Claim C1: for every pixel `(x, y)` of a successfully demosaiced
integer-sample image whose CFA color is `c`, assuming each non-native color
is carried by at least one existing neighbor, the output entry at linear
index `y*width+x` has: channel `c` equal to the pixel's own raw sample over
channel `c`'s white level, and each other channel equal to the arithmetic
mean (sum / count) of the same-colored existing neighbor samples over that
channel's white level; the output has length width*height. -/
theorem demosaic_output_spec (img : RawImage) (x y : Nat) (l : List (ℚ × ℚ × ℚ))
    (hx : x < img.width) (hy : y < img.height) (hdem : demosaic img = some l)
    (_hneigh : ∀ c, c < 3 → c ≠ img.cfa y x → 0 < colorCount img c (neighbors img x y)) :
    l.length = img.width * img.height ∧
    channelOf (l.getD (y * img.width + x) (0, 0, 0)) (img.cfa y x) =
      ((img.data.getD (y * img.width + x) 0 : Nat) : ℚ) / whiteLevelOf img (img.cfa y x) ∧
    ∀ c, c < 3 → c ≠ img.cfa y x →
      channelOf (l.getD (y * img.width + x) (0, 0, 0)) c =
        (colorSum img c (neighbors img x y) / (colorCount img c (neighbors img x y) : ℚ)) /
          whiteLevelOf img c := by
  have hpx := demosaic_pixel_at img l x y hx hy hdem
  obtain ⟨hA, hc3, h0, h1, h2⟩ := demosaicPixel_some img x y _ hpx
  refine ⟨demosaic_length img l hdem, ?_, ?_⟩
  · rcases hcc : img.cfa y x with _ | _ | _ | n
    · rw [h0 hcc]
      simp [channelOf, whiteLevelOf]
    · rw [h1 hcc]
      simp [channelOf, whiteLevelOf]
    · rw [h2 hcc]
      simp [channelOf, whiteLevelOf]
    · omega
  · intro c hc hne
    rcases hcc : img.cfa y x with _ | _ | _ | n
    · rw [h0 hcc]
      rcases hcv : c with _ | _ | _ | m
      · omega
      · simp [channelOf, whiteLevelOf]
      · simp [channelOf, whiteLevelOf]
      · omega
    · rw [h1 hcc]
      rcases hcv : c with _ | _ | _ | m
      · simp [channelOf, whiteLevelOf]
      · omega
      · simp [channelOf, whiteLevelOf]
      · omega
    · rw [h2 hcc]
      rcases hcv : c with _ | _ | _ | m
      · simp [channelOf, whiteLevelOf]
      · simp [channelOf, whiteLevelOf]
      · omega
      · omega
    · omega

theorem demosaic_output_spec_witness :
    (0 < cimg2.width ∧ 0 < cimg2.height ∧
      demosaic cimg2 = some [(1, 5/2, 4), (1, 2, 4), (1, 3, 4), (1, 5/2, 4)] ∧
      (∀ c, c < 3 → c ≠ cimg2.cfa 0 0 → 0 < colorCount cimg2 c (neighbors cimg2 0 0))) ∧
    ([(1, 5/2, 4), (1, 2, 4), (1, 3, 4), ((1 : ℚ), (5/2 : ℚ), (4 : ℚ))].length =
        cimg2.width * cimg2.height ∧
      channelOf (([(1, 5/2, 4), (1, 2, 4), (1, 3, 4),
          ((1 : ℚ), (5/2 : ℚ), (4 : ℚ))].getD (0 * cimg2.width + 0) (0, 0, 0)))
          (cimg2.cfa 0 0) =
        ((cimg2.data.getD (0 * cimg2.width + 0) 0 : Nat) : ℚ) /
          whiteLevelOf cimg2 (cimg2.cfa 0 0) ∧
      ∀ c, c < 3 → c ≠ cimg2.cfa 0 0 →
        channelOf (([(1, 5/2, 4), (1, 2, 4), (1, 3, 4),
            ((1 : ℚ), (5/2 : ℚ), (4 : ℚ))].getD (0 * cimg2.width + 0) (0, 0, 0))) c =
          (colorSum cimg2 c (neighbors cimg2 0 0) /
              (colorCount cimg2 c (neighbors cimg2 0 0) : ℚ)) / whiteLevelOf cimg2 c) :=
  ⟨⟨by norm_num [cimg2], by norm_num [cimg2],
    by norm_num [demosaic, cimg2, optList, demosaicPixel, classify, adjacent_pixels,
      List.range_succ, RawImage.red_max, RawImage.green_max, RawImage.blue_max, bayerRGGB],
    by decide⟩,
    demosaic_output_spec cimg2 0 0 _ (by norm_num [cimg2]) (by norm_num [cimg2])
      (by norm_num [demosaic, cimg2, optList, demosaicPixel, classify, adjacent_pixels,
        List.range_succ, RawImage.red_max, RawImage.green_max, RawImage.blue_max, bayerRGGB])
      (by decide)⟩

/-! ### Claim C7: normalization range -/

/-- Claim C7 as stated is refuted by the degenerate case it covers: at the
valid pixel (0,0) of the 1×1 capture `cimg1`, with positive white levels,
the two non-native colors have zero same-colored neighbors, so the program
computes each averaged channel as `0.0 / 0.0 / max` — in the source's f32
arithmetic `0.0 / 0.0` is NaN, which is not non-negative. The exact ℚ
embedding (where x / 0 = 0) cannot express NaN, so the refutation exhibits
the zero-count configuration: the divisor of both averaged channels is the
cast of count 0, i.e. literally 0. -/
theorem normalized_channel_counterexample :
    (0 < cimg1.red_max ∧ 0 < cimg1.green_max ∧ 0 < cimg1.blue_max) ∧
    (0 < cimg1.width ∧ 0 < cimg1.height) ∧
    cimg1.cfa 0 0 = 0 ∧
    colorCount cimg1 1 (neighbors cimg1 0 0) = 0 ∧
    colorCount cimg1 2 (neighbors cimg1 0 0) = 0 ∧
    demosaicPixel cimg1 0 0 =
      some (7 / cimg1.red_max,
        colorSum cimg1 1 (neighbors cimg1 0 0) / ((0 : Nat) : ℚ) / cimg1.green_max,
        colorSum cimg1 2 (neighbors cimg1 0 0) / ((0 : Nat) : ℚ) / cimg1.blue_max) := by
  refine ⟨⟨?_, ?_, ?_⟩, ⟨?_, ?_⟩, ?_, ?_, ?_, ?_⟩
  · norm_num [cimg1, RawImage.red_max]
  · norm_num [cimg1, RawImage.green_max]
  · norm_num [cimg1, RawImage.blue_max]
  · norm_num [cimg1]
  · norm_num [cimg1]
  · norm_num [cimg1, bayerRGGB]
  · decide
  · decide
  · norm_num [demosaicPixel, classify, adjacent_pixels, colorSum, colorFilter,
      neighbors, cimg1, bayerRGGB, RawImage.red_max, RawImage.green_max,
      RawImage.blue_max]

/-- Claim C7, amended with the positive-count assumption (the
counterexample shows the original claim also covers pixels where the
program divides 0.0 by 0.0, producing NaN): with positive per-channel
white levels, if every non-native color is carried by at least one
existing neighbor, every reconstructed channel of a successfully
demosaiced pixel is non-negative, and a channel exceeds 1 exactly when its
raw quantity (own sample for the native channel, neighbor mean otherwise)
exceeds that channel's white level — no clamping. -/
theorem normalized_channel_spec (img : RawImage) (x y : Nat) (r g b : ℚ)
    (hr : 0 < img.red_max) (hg : 0 < img.green_max) (hb : 0 < img.blue_max)
    (_hcount : ∀ c, c < 3 → c ≠ img.cfa y x → 0 < colorCount img c (neighbors img x y))
    (h : demosaicPixel img x y = some (r, g, b)) :
    (0 ≤ r ∧ 0 ≤ g ∧ 0 ≤ b) ∧
    ∀ c, c < 3 →
      (1 < channelOf (r, g, b) c ↔ whiteLevelOf img c < rawQuantity img x y c) := by
  obtain ⟨hA, hc3, h0, h1, h2⟩ := demosaicPixel_some img x y _ h
  have hnn := adjacent_pixels_value_nonneg img (y * img.width + x) x y
  have hS : ∀ c, 0 ≤ colorSum img c (neighbors img x y) := fun c =>
    colorSum_nonneg img c _ hnn
  have hC : ∀ c, (0 : ℚ) ≤ ((colorCount img c (neighbors img x y) : Nat) : ℚ) := fun c =>
    Nat.cast_nonneg _
  have havg : ∀ c (max : ℚ), 0 < max →
      0 ≤ colorSum img c (neighbors img x y) /
        ((colorCount img c (neighbors img x y) : Nat) : ℚ) / max :=
    fun c max hmax => div_nonneg (div_nonneg (hS c) (hC c)) hmax.le
  have hown : (0 : ℚ) ≤ ((img.data.getD (y * img.width + x) 0 : Nat) : ℚ) :=
    Nat.cast_nonneg _
  rcases hcc : img.cfa y x with _ | _ | _ | n
  · have hv := h0 hcc
    injection hv with e1 hv2
    injection hv2 with e2 e3
    subst e1
    subst e2
    subst e3
    refine ⟨⟨div_nonneg hown hr.le, havg 1 _ hg, havg 2 _ hb⟩, ?_⟩
    intro c hc
    rcases c with _ | _ | _ | m
    · simpa [channelOf, whiteLevelOf, rawQuantity, hcc] using one_lt_div hr
    · simpa [channelOf, whiteLevelOf, rawQuantity, hcc] using one_lt_div hg
    · simpa [channelOf, whiteLevelOf, rawQuantity, hcc] using one_lt_div hb
    · omega
  · have hv := h1 hcc
    injection hv with e1 hv2
    injection hv2 with e2 e3
    subst e1
    subst e2
    subst e3
    refine ⟨⟨havg 0 _ hr, div_nonneg hown hg.le, havg 2 _ hb⟩, ?_⟩
    intro c hc
    rcases c with _ | _ | _ | m
    · simpa [channelOf, whiteLevelOf, rawQuantity, hcc] using one_lt_div hr
    · simpa [channelOf, whiteLevelOf, rawQuantity, hcc] using one_lt_div hg
    · simpa [channelOf, whiteLevelOf, rawQuantity, hcc] using one_lt_div hb
    · omega
  · have hv := h2 hcc
    injection hv with e1 hv2
    injection hv2 with e2 e3
    subst e1
    subst e2
    subst e3
    refine ⟨⟨havg 0 _ hr, havg 1 _ hg, div_nonneg hown hb.le⟩, ?_⟩
    intro c hc
    rcases c with _ | _ | _ | m
    · simpa [channelOf, whiteLevelOf, rawQuantity, hcc] using one_lt_div hr
    · simpa [channelOf, whiteLevelOf, rawQuantity, hcc] using one_lt_div hg
    · simpa [channelOf, whiteLevelOf, rawQuantity, hcc] using one_lt_div hb
    · omega
  · omega

theorem normalized_channel_spec_witness :
    (0 < cimg2.red_max ∧ 0 < cimg2.green_max ∧ 0 < cimg2.blue_max ∧
      (∀ c, c < 3 → c ≠ cimg2.cfa 0 0 → 0 < colorCount cimg2 c (neighbors cimg2 0 0)) ∧
      demosaicPixel cimg2 0 0 = some (1, 5/2, 4)) ∧
    ((0 ≤ (1 : ℚ) ∧ 0 ≤ (5/2 : ℚ) ∧ 0 ≤ (4 : ℚ)) ∧
      ∀ c, c < 3 →
        (1 < channelOf (1, 5/2, 4) c ↔ whiteLevelOf cimg2 c < rawQuantity cimg2 0 0 c)) :=
  ⟨⟨by norm_num [cimg2, RawImage.red_max], by norm_num [cimg2, RawImage.green_max],
    by norm_num [cimg2, RawImage.blue_max], by decide,
    by norm_num [demosaicPixel, cimg2, classify, adjacent_pixels, bayerRGGB,
      RawImage.red_max, RawImage.green_max, RawImage.blue_max]⟩,
    normalized_channel_spec cimg2 0 0 1 (5/2) 4
      (by norm_num [cimg2, RawImage.red_max])
      (by norm_num [cimg2, RawImage.green_max])
      (by norm_num [cimg2, RawImage.blue_max])
      (by decide)
      (by norm_num [demosaicPixel, cimg2, classify, adjacent_pixels, bayerRGGB,
        RawImage.red_max, RawImage.green_max, RawImage.blue_max])⟩

/-! ### Claim C8: CFA oracle contract -/

/-- Claim C8: a filter index outside {0,1,2} at any scanned pixel makes the
demosaicer abort (the scan yields `none`); conversely, when the oracle
answers in {0,1,2} on every in-bounds coordinate, both `panic!()` arms are
unreachable and the scan produces a result. -/
theorem cfa_contract (img : RawImage) :
    (∀ x y, x < img.width → y < img.height → 3 ≤ img.cfa y x → demosaic img = none) ∧
    ((∀ y, y < img.height → ∀ x, x < img.width → img.cfa y x < 3) →
      (demosaic img).isSome) := by
  constructor
  · intro x y hx hy hbad
    rw [demosaic]
    obtain ⟨hmod, hdiv, hlt⟩ := rowmajor_decode hx hy
    apply optList_eq_none_of_mem _ _ (y * img.width + x) (List.mem_range.mpr hlt)
    show demosaicPixel img ((y * img.width + x) % img.width)
      ((y * img.width + x) / img.width) = none
    rw [hmod, hdiv]
    simp only [demosaicPixel]
    rcases hcl : classify img (adjacent_pixels img (y * img.width + x) x y) with _ | t
    · rfl
    · simp only [Option.some_bind]
      rw [if_neg (by omega), if_neg (by omega), if_neg (by omega)]
  · intro hgood
    rw [demosaic]
    apply optList_isSome
    intro i hi
    rw [List.mem_range] at hi
    have hwh : 0 < img.width * img.height := Nat.lt_of_le_of_lt (Nat.zero_le i) hi
    have hw : 0 < img.width := by
      rcases Nat.eq_zero_or_pos img.width with h0 | h0
      · rw [h0] at hwh; simp at hwh
      · exact h0
    have hpx : i % img.width < img.width := Nat.mod_lt _ hw
    have hpy : i / img.width < img.height := by
      rw [Nat.div_lt_iff_lt_mul hw]
      exact Nat.lt_of_lt_of_le hi (Nat.le_of_eq (Nat.mul_comm _ _))
    simp only [demosaicPixel]
    have hA : ∀ p ∈ adjacent_pixels img
        (i / img.width * img.width + i % img.width) (i % img.width) (i / img.width),
        img.cfa p.2.2 p.2.1 < 3 := by
      intro p hp
      obtain ⟨h1, h2⟩ := adjacent_pixels_coord_lt img _ _ _ hpx hpy p hp
      exact hgood p.2.2 h2 p.2.1 h1
    rw [classify_eq_of_colors _ _ hA]
    simp only [Option.some_bind]
    have hc := hgood (i / img.width) hpy (i % img.width) hpx
    split_ifs with h1 h2 h3 <;> simp
    omega

theorem cfa_contract_witness :
    ((0 < cimgBad.width ∧ 0 < cimgBad.height ∧ 3 ≤ cimgBad.cfa 0 0) ∧
      demosaic cimgBad = none) ∧
    ((∀ y, y < cimg2.height → ∀ x, x < cimg2.width → cimg2.cfa y x < 3) ∧
      (demosaic cimg2).isSome) :=
  ⟨⟨⟨by norm_num [cimgBad], by norm_num [cimgBad], by norm_num [cimgBad]⟩,
    (cfa_contract cimgBad).1 0 0 (by norm_num [cimgBad]) (by norm_num [cimgBad])
      (by norm_num [cimgBad])⟩,
   ⟨by decide, (cfa_contract cimg2).2 (by decide)⟩⟩

/-! ### Claim C2: neighbor enumeration -/

theorem getD_eq_get {α : Type} (l : List α) (d : α) (i : Nat) (h : i < l.length) :
    l.getD i d = l.get ⟨i, h⟩ := by
  rw [List.getD_eq_getElem l d h, List.get_eq_getElem]

/-- The sampled neighbor coordinates, with the value reads dropped. -/
theorem neighborCoords_eq (img : RawImage) (x y : Nat) :
    neighborCoords img x y =
      (if x ≠ 0 ∧ y ≠ 0 then [(x - 1, y - 1)] else []) ++
      (if y ≠ 0 then [(x, y - 1)] else []) ++
      (if x ≠ img.width - 1 ∧ y ≠ 0 then [(x + 1, y - 1)] else []) ++
      (if x ≠ 0 then [(x - 1, y)] else []) ++
      (if x ≠ img.width - 1 then [(x + 1, y)] else []) ++
      (if x ≠ 0 ∧ y ≠ img.height - 1 then [(x - 1, y + 1)] else []) ++
      (if y ≠ img.height - 1 then [(x, y + 1)] else []) ++
      (if x ≠ img.width - 1 ∧ y ≠ img.height - 1 then [(x + 1, y + 1)] else []) := by
  simp only [neighborCoords, neighbors, adjacent_pixels, List.map_append,
    apply_ite (List.map (fun p : ℚ × Nat × Nat => p.2)), List.map_cons, List.map_nil]

/-- Neighbor count as a sum of the eight guard indicators. -/
theorem neighborCoords_length (img : RawImage) (x y : Nat) :
    (neighborCoords img x y).length =
      (if x ≠ 0 ∧ y ≠ 0 then 1 else 0) + (if y ≠ 0 then 1 else 0) +
      (if x ≠ img.width - 1 ∧ y ≠ 0 then 1 else 0) + (if x ≠ 0 then 1 else 0) +
      (if x ≠ img.width - 1 then 1 else 0) +
      (if x ≠ 0 ∧ y ≠ img.height - 1 then 1 else 0) +
      (if y ≠ img.height - 1 then 1 else 0) +
      (if x ≠ img.width - 1 ∧ y ≠ img.height - 1 then 1 else 0) := by
  rw [neighborCoords_eq]
  simp only [List.length_append, apply_ite List.length, List.length_singleton,
    List.length_nil]

set_option maxHeartbeats 2000000 in
/-- Claim C2, amended with dimensions at least 2×2 (as stated the claim
fails on 1-wide or 1-tall images, see the counterexample): every valid
pixel gets between 3 and 8 neighbors, no coordinate repeats, none is out of
bounds, the pixel (0,0) gets exactly E, S, SE in that order, and an
interior pixel gets exactly 8. -/
theorem neighbor_sampler_spec (img : RawImage) (x y : Nat)
    (hW : 2 ≤ img.width) (hH : 2 ≤ img.height)
    (hx : x < img.width) (hy : y < img.height) :
    (3 ≤ (neighborCoords img x y).length ∧ (neighborCoords img x y).length ≤ 8) ∧
    (neighborCoords img x y).Nodup ∧
    (∀ c ∈ neighborCoords img x y, c.1 < img.width ∧ c.2 < img.height) ∧
    (x = 0 → y = 0 → neighborCoords img x y = [(1, 0), (0, 1), (1, 1)]) ∧
    (0 < x → x < img.width - 1 → 0 < y → y < img.height - 1 →
      (neighborCoords img x y).length = 8) := by
  refine ⟨?_, ?_, ?_, ?_, ?_⟩
  · rw [neighborCoords_length]
    split_ifs <;> omega
  · rw [neighborCoords_eq]
    split_ifs <;>
      simp only [List.nil_append, List.append_nil, List.cons_append, List.singleton_append,
        List.nodup_cons, List.mem_cons, List.mem_singleton, List.not_mem_nil,
        List.nodup_nil, Prod.mk.injEq, not_or, not_false_iff, and_true, true_and] <;>
      omega
  · intro c hc
    obtain ⟨p, hp, rfl⟩ := List.mem_map.mp hc
    exact adjacent_pixels_coord_lt img _ x y hx hy p hp
  · rintro rfl rfl
    simp [neighborCoords_eq, show (0 : Nat) ≠ img.width - 1 from by omega,
      show (0 : Nat) ≠ img.height - 1 from by omega]
  · intro h1 h2 h3 h4
    rw [neighborCoords_length]
    split_ifs <;> omega

/-- Claim C2 as stated is refuted by a degenerate image: at the valid
coordinate (0,0) of the 1×1 capture `cimg1` the enumeration returns 0
neighbors, not at least 3. -/
theorem neighbor_sampler_counterexample :
    0 < cimg1.width ∧ 0 < cimg1.height ∧ ¬ 3 ≤ (neighborCoords cimg1 0 0).length := by
  refine ⟨by norm_num [cimg1], by norm_num [cimg1], ?_⟩
  norm_num [neighborCoords, neighbors, adjacent_pixels, cimg1]

theorem neighbor_sampler_spec_witness :
    (2 ≤ cimg2.width ∧ 2 ≤ cimg2.height ∧ 0 < cimg2.width ∧ 0 < cimg2.height) ∧
    ((3 ≤ (neighborCoords cimg2 0 0).length ∧ (neighborCoords cimg2 0 0).length ≤ 8) ∧
      (neighborCoords cimg2 0 0).Nodup ∧
      (∀ c ∈ neighborCoords cimg2 0 0, c.1 < cimg2.width ∧ c.2 < cimg2.height) ∧
      ((0 : Nat) = 0 → (0 : Nat) = 0 → neighborCoords cimg2 0 0 = [(1, 0), (0, 1), (1, 1)]) ∧
      (0 < (0 : Nat) → (0 : Nat) < cimg2.width - 1 → 0 < (0 : Nat) →
        (0 : Nat) < cimg2.height - 1 → (neighborCoords cimg2 0 0).length = 8)) :=
  ⟨⟨by norm_num [cimg2], by norm_num [cimg2], by norm_num [cimg2], by norm_num [cimg2]⟩,
    neighbor_sampler_spec cimg2 0 0 (by norm_num [cimg2]) (by norm_num [cimg2])
      (by norm_num [cimg2]) (by norm_num [cimg2])⟩

/-! ### Claim C10: index safety of the scan -/

/-- Claim C10: on a full sample buffer (length = width·height) every access
of the demosaic scan is safe — the pixel's own linear index is in range,
the guarded neighbor subtractions never underflow (the subtrahend is
covered whenever the guard holds), each neighbor value was read exactly at
the in-range linear index of its own coordinate, and the `pixels_fn`
channel lookups are in range for every in-bounds coordinate. -/
theorem index_safety (img : RawImage) (x y : Nat) (hx : x < img.width)
    (hy : y < img.height) (hdata : img.data.length = img.width * img.height) :
    (y * img.width + x < img.data.length) ∧
    ((x ≠ 0 ∧ y ≠ 0) → img.width + 1 ≤ y * img.width + x) ∧
    (y ≠ 0 → img.width ≤ y * img.width + x) ∧
    (x ≠ 0 → 1 ≤ y * img.width + x) ∧
    (∀ p ∈ neighbors img x y, ∃ h : p.2.2 * img.width + p.2.1 < img.data.length,
      p.1 = ((img.data.get ⟨p.2.2 * img.width + p.2.1, h⟩ : Nat) : ℚ)) ∧
    (∀ (red green blue : List ℚ) (px py : Nat),
      red.length = img.width * img.height → green.length = img.width * img.height →
      blue.length = img.width * img.height → px < img.width → py < img.height →
      ∃ h1 : img.width * py + px < red.length,
      ∃ h2 : img.width * py + px < green.length,
      ∃ h3 : img.width * py + px < blue.length,
      pixels_fn img.width red green blue (px, py) =
        (red.get ⟨img.width * py + px, h1⟩, green.get ⟨img.width * py + px, h2⟩,
         blue.get ⟨img.width * py + px, h3⟩)) := by
  have e1 : (y - 1) * img.width = y * img.width - img.width := by
    rw [Nat.sub_mul, Nat.one_mul]
  have e2 : (y + 1) * img.width = y * img.width + img.width := by
    rw [Nat.add_mul, Nat.one_mul]
  have e3 : y ≠ 0 → img.width ≤ y * img.width := fun h =>
    Nat.le_mul_of_pos_left img.width (Nat.pos_of_ne_zero h)
  have hown := (rowmajor_decode hx hy).2.2
  refine ⟨by omega, ?_, ?_, ?_, ?_, ?_⟩
  · intro ⟨h1, h2⟩
    have := e3 h2
    omega
  · intro h
    have := e3 h
    omega
  · intro _
    omega
  · intro p hp
    simp only [neighbors, adjacent_pixels, List.mem_append, mem_ite_singleton] at hp
    rcases hp with (((((((⟨⟨g1, g2⟩, rfl⟩ | ⟨g, rfl⟩) | ⟨⟨g1, g2⟩, rfl⟩) | ⟨g, rfl⟩) |
      ⟨g, rfl⟩) | ⟨⟨g1, g2⟩, rfl⟩) | ⟨g, rfl⟩) | ⟨⟨g1, g2⟩, rfl⟩)
    · have hb : (y - 1) * img.width + (x - 1) < img.data.length := by
        have := (rowmajor_decode (show x - 1 < img.width by omega)
          (show y - 1 < img.height by omega)).2.2
        omega
      refine ⟨hb, ?_⟩
      show ((img.data.getD (y * img.width + x - img.width - 1) 0 : Nat) : ℚ) =
        ((img.data.get ⟨(y - 1) * img.width + (x - 1), hb⟩ : Nat) : ℚ)
      have hidx : y * img.width + x - img.width - 1 = (y - 1) * img.width + (x - 1) := by
        have := e3 g2
        omega
      rw [hidx, getD_eq_get img.data 0 _ hb]
    · have hb : (y - 1) * img.width + x < img.data.length := by
        have := (rowmajor_decode hx (show y - 1 < img.height by omega)).2.2
        omega
      refine ⟨hb, ?_⟩
      show ((img.data.getD (y * img.width + x - img.width) 0 : Nat) : ℚ) =
        ((img.data.get ⟨(y - 1) * img.width + x, hb⟩ : Nat) : ℚ)
      have hidx : y * img.width + x - img.width = (y - 1) * img.width + x := by
        have := e3 g
        omega
      rw [hidx, getD_eq_get img.data 0 _ hb]
    · have hb : (y - 1) * img.width + (x + 1) < img.data.length := by
        have := (rowmajor_decode (show x + 1 < img.width by omega)
          (show y - 1 < img.height by omega)).2.2
        omega
      refine ⟨hb, ?_⟩
      show ((img.data.getD (y * img.width + x - img.width + 1) 0 : Nat) : ℚ) =
        ((img.data.get ⟨(y - 1) * img.width + (x + 1), hb⟩ : Nat) : ℚ)
      have hidx : y * img.width + x - img.width + 1 = (y - 1) * img.width + (x + 1) := by
        have := e3 g2
        omega
      rw [hidx, getD_eq_get img.data 0 _ hb]
    · have hb : y * img.width + (x - 1) < img.data.length := by omega
      refine ⟨hb, ?_⟩
      show ((img.data.getD (y * img.width + x - 1) 0 : Nat) : ℚ) =
        ((img.data.get ⟨y * img.width + (x - 1), hb⟩ : Nat) : ℚ)
      have hidx : y * img.width + x - 1 = y * img.width + (x - 1) := by omega
      rw [hidx, getD_eq_get img.data 0 _ hb]
    · have hb : y * img.width + (x + 1) < img.data.length := by
        have := (rowmajor_decode (show x + 1 < img.width by omega) hy).2.2
        omega
      refine ⟨hb, ?_⟩
      show ((img.data.getD (y * img.width + x + 1) 0 : Nat) : ℚ) =
        ((img.data.get ⟨y * img.width + (x + 1), hb⟩ : Nat) : ℚ)
      have hidx : y * img.width + x + 1 = y * img.width + (x + 1) := by omega
      rw [hidx, getD_eq_get img.data 0 _ hb]
    · have hb : (y + 1) * img.width + (x - 1) < img.data.length := by
        have := (rowmajor_decode (show x - 1 < img.width by omega)
          (show y + 1 < img.height by omega)).2.2
        omega
      refine ⟨hb, ?_⟩
      show ((img.data.getD (y * img.width + x + img.width - 1) 0 : Nat) : ℚ) =
        ((img.data.get ⟨(y + 1) * img.width + (x - 1), hb⟩ : Nat) : ℚ)
      have hidx : y * img.width + x + img.width - 1 = (y + 1) * img.width + (x - 1) := by
        omega
      rw [hidx, getD_eq_get img.data 0 _ hb]
    · have hb : (y + 1) * img.width + x < img.data.length := by
        have := (rowmajor_decode hx (show y + 1 < img.height by omega)).2.2
        omega
      refine ⟨hb, ?_⟩
      show ((img.data.getD (y * img.width + x + img.width) 0 : Nat) : ℚ) =
        ((img.data.get ⟨(y + 1) * img.width + x, hb⟩ : Nat) : ℚ)
      have hidx : y * img.width + x + img.width = (y + 1) * img.width + x := by omega
      rw [hidx, getD_eq_get img.data 0 _ hb]
    · have hb : (y + 1) * img.width + (x + 1) < img.data.length := by
        have := (rowmajor_decode (show x + 1 < img.width by omega)
          (show y + 1 < img.height by omega)).2.2
        omega
      refine ⟨hb, ?_⟩
      show ((img.data.getD (y * img.width + x + img.width + 1) 0 : Nat) : ℚ) =
        ((img.data.get ⟨(y + 1) * img.width + (x + 1), hb⟩ : Nat) : ℚ)
      have hidx : y * img.width + x + img.width + 1 = (y + 1) * img.width + (x + 1) := by
        omega
      rw [hidx, getD_eq_get img.data 0 _ hb]
  · intro red green blue px py hr hg hb hpx hpy
    have hcm : img.width * py = py * img.width := Nat.mul_comm _ _
    have hlt := (rowmajor_decode hpx hpy).2.2
    refine ⟨by omega, by omega, by omega, ?_⟩
    simp only [pixels_fn]
    rw [getD_eq_get red 0 _ (by omega), getD_eq_get green 0 _ (by omega),
      getD_eq_get blue 0 _ (by omega)]

theorem index_safety_witness :
    ((1 : Nat) < cimg2.width ∧ (1 : Nat) < cimg2.height ∧
      cimg2.data.length = cimg2.width * cimg2.height) ∧
    ((1 * cimg2.width + 1 < cimg2.data.length) ∧
      (((1 : Nat) ≠ 0 ∧ (1 : Nat) ≠ 0) → cimg2.width + 1 ≤ 1 * cimg2.width + 1) ∧
      ((1 : Nat) ≠ 0 → cimg2.width ≤ 1 * cimg2.width + 1) ∧
      ((1 : Nat) ≠ 0 → 1 ≤ 1 * cimg2.width + 1) ∧
      (∀ p ∈ neighbors cimg2 1 1, ∃ h : p.2.2 * cimg2.width + p.2.1 < cimg2.data.length,
        p.1 = ((cimg2.data.get ⟨p.2.2 * cimg2.width + p.2.1, h⟩ : Nat) : ℚ)) ∧
      (∀ (red green blue : List ℚ) (px py : Nat),
        red.length = cimg2.width * cimg2.height →
        green.length = cimg2.width * cimg2.height →
        blue.length = cimg2.width * cimg2.height → px < cimg2.width → py < cimg2.height →
        ∃ h1 : cimg2.width * py + px < red.length,
        ∃ h2 : cimg2.width * py + px < green.length,
        ∃ h3 : cimg2.width * py + px < blue.length,
        pixels_fn cimg2.width red green blue (px, py) =
          (red.get ⟨cimg2.width * py + px, h1⟩, green.get ⟨cimg2.width * py + px, h2⟩,
           blue.get ⟨cimg2.width * py + px, h3⟩))) :=
  ⟨⟨by norm_num [cimg2], by norm_num [cimg2], by norm_num [cimg2]⟩,
    index_safety cimg2 1 1 (by norm_num [cimg2]) (by norm_num [cimg2])
      (by norm_num [cimg2])⟩

/-! ### Claim C3: crop bounds -/

/-- Claim C3: for crop margins in order (top, right, bottom, left) with
left+right ≤ W and top+bottom ≤ H, `crops_size_to_bounds` returns position
(left, top) and size (W − left − right, H − top − bottom) — the size read
over ℤ to show the usize subtraction does not truncate — and for all-zero
margins it returns position (0,0) and size (W,H). -/
theorem crops_size_to_bounds_spec (c : Fin 4 → Nat) (W H : Nat)
    (hlr : c 3 + c 1 ≤ W) (htb : c 0 + c 2 ≤ H) :
    (crops_size_to_bounds c W H).position = ((c 3 : Int), (c 0 : Int)) ∧
    ((crops_size_to_bounds c W H).size.1 : Int) = (W : Int) - (c 3 : Int) - (c 1 : Int) ∧
    ((crops_size_to_bounds c W H).size.2 : Int) = (H : Int) - (c 0 : Int) - (c 2 : Int) ∧
    crops_size_to_bounds (fun _ => 0) W H = { position := (0, 0), size := (W, H) } := by
  refine ⟨rfl, ?_, ?_, ?_⟩
  · simp only [crops_size_to_bounds]
    omega
  · simp only [crops_size_to_bounds]
    omega
  · simp [crops_size_to_bounds]

/-! ### Claim C4: chromaticity failure is fatal -/

/-- Claim C4: the chromaticity conversion of a probed tristimulus vector
fails exactly when its components sum to zero, and a failed derivation is
fatal — the pipeline yields no output at all (nothing reaches the writer,
no default primaries are substituted). -/
theorem chromaticity_failure_fatal :
    (∀ v : ℚ × ℚ × ℚ, tryXyy v = none ↔ v.1 + v.2.1 + v.2.2 = 0) ∧
    (∀ (img : RawImage) (m : Matrix3x3f),
      derivePrimaries m img.red_max img.green_max img.blue_max = none →
      pipeline img m = none) := by
  constructor
  · intro v
    rw [tryXyy]
    split_ifs with h
    · simp [h]
    · simp [h]
  · intro img m hd
    rw [pipeline]
    cases hdem : demosaic img
    · rfl
    · simp [hd]

theorem chromaticity_failure_fatal_witness :
    (tryXyy ((1 : ℚ), (2 : ℚ), (-3 : ℚ)) = none ↔ (1 : ℚ) + 2 + -3 = 0) ∧
    (derivePrimaries zeroM cimg2.red_max cimg2.green_max cimg2.blue_max = none ∧
      pipeline cimg2 zeroM = none) :=
  ⟨chromaticity_failure_fatal.1 (1, 2, -3),
   ⟨by norm_num [derivePrimaries, tryXyy, matVec, zeroM, cimg2,
      RawImage.red_max, RawImage.green_max, RawImage.blue_max],
    chromaticity_failure_fatal.2 cimg2 zeroM
      (by norm_num [derivePrimaries, tryXyy, matVec, zeroM, cimg2,
        RawImage.red_max, RawImage.green_max, RawImage.blue_max])⟩⟩

/-! ### Claim C5: scale invariance of the derivation -/

/-- Scaling a tristimulus vector by a nonzero factor leaves the 2D
chromaticity coordinates unchanged and scales only the luminance. -/
theorem tryXyy_scale (k : ℚ) (hk : k ≠ 0) (v : ℚ × ℚ × ℚ) :
    tryXyy (k * v.1, k * v.2.1, k * v.2.2) =
      (tryXyy v).map (fun p => (p.1, k * p.2)) := by
  simp only [tryXyy]
  have hsum : k * v.1 + k * v.2.1 + k * v.2.2 = k * (v.1 + v.2.1 + v.2.2) := by ring
  rw [hsum]
  by_cases hS : v.1 + v.2.1 + v.2.2 = 0
  · rw [if_pos (by rw [hS, mul_zero]), if_pos hS]
    rfl
  · rw [if_neg (mul_ne_zero hk hS), if_neg hS]
    simp [mul_div_mul_left _ _ hk]

/-- Claim C5: the primaries derivation is scale-invariant — replacing the
white levels (R, G, B) by (kR, kG, kB) for positive k yields the same four
chromaticity coordinate pairs. -/
theorem derive_scale_invariant (m : Matrix3x3f) (R G B k : ℚ) (hk : 0 < k) :
    derivePrimaries m (k * R) (k * G) (k * B) = derivePrimaries m R G B := by
  have hk0 : k ≠ 0 := ne_of_gt hk
  have hmv : ∀ a b c : ℚ, matVec m (k * a, k * b, k * c) =
      (k * (matVec m (a, b, c)).1, k * (matVec m (a, b, c)).2.1,
       k * (matVec m (a, b, c)).2.2) := by
    intro a b c
    simp only [matVec, Prod.ext_iff]
    refine ⟨by ring, by ring, by ring⟩
  have key1 : tryXyy (matVec m (k * R, 0, 0)) =
      (tryXyy (matVec m (R, 0, 0))).map (fun p => (p.1, k * p.2)) := by
    rw [show ((k * R, (0 : ℚ), (0 : ℚ)) : ℚ × ℚ × ℚ) = (k * R, k * 0, k * 0) from
      by norm_num, hmv R 0 0, tryXyy_scale k hk0 (matVec m (R, 0, 0))]
  have key2 : tryXyy (matVec m (0, k * G, 0)) =
      (tryXyy (matVec m (0, G, 0))).map (fun p => (p.1, k * p.2)) := by
    rw [show (((0 : ℚ), k * G, (0 : ℚ)) : ℚ × ℚ × ℚ) = (k * 0, k * G, k * 0) from
      by norm_num, hmv 0 G 0, tryXyy_scale k hk0 (matVec m (0, G, 0))]
  have key3 : tryXyy (matVec m (0, 0, k * B)) =
      (tryXyy (matVec m (0, 0, B))).map (fun p => (p.1, k * p.2)) := by
    rw [show (((0 : ℚ), (0 : ℚ), k * B) : ℚ × ℚ × ℚ) = (k * 0, k * 0, k * B) from
      by norm_num, hmv 0 0 B, tryXyy_scale k hk0 (matVec m (0, 0, B))]
  have key4 : tryXyy (matVec m (k * R, k * G, k * B)) =
      (tryXyy (matVec m (R, G, B))).map (fun p => (p.1, k * p.2)) := by
    rw [hmv R G B, tryXyy_scale k hk0 (matVec m (R, G, B))]
  simp only [derivePrimaries]
  rw [key1, key2, key3, key4]
  rcases tryXyy (matVec m (R, 0, 0)) with _ | r <;>
    rcases tryXyy (matVec m (0, G, 0)) with _ | g <;>
    rcases tryXyy (matVec m (0, 0, B)) with _ | b <;>
    rcases tryXyy (matVec m (R, G, B)) with _ | w <;>
    simp

theorem derive_scale_invariant_witness :
    0 < (2 : ℚ) ∧
    derivePrimaries identityM (2 * 1) (2 * 2) (2 * 3) = derivePrimaries identityM 1 2 3 :=
  ⟨by norm_num, derive_scale_invariant identityM 1 2 3 2 (by norm_num)⟩

/-! ### Claim C6: identity matrix and the white probe -/

/-- Claim C6 as stated is refuted: the white levels (1, 2, 3) are positive,
yet with the identity camera matrix the white probe lands at (1/6, 1/3),
not at the equal-energy point (1/3, 1/3). -/
theorem identity_white_counterexample :
    (0 < (1 : ℚ) ∧ 0 < (2 : ℚ) ∧ 0 < (3 : ℚ)) ∧
    derivePrimaries identityM 1 2 3 =
      some { red := (1, 0), green := (0, 1), blue := (0, 0), white := (1/6, 1/3) } ∧
    ((1/6 : ℚ), (1/3 : ℚ)) ≠ ((1/3 : ℚ), (1/3 : ℚ)) := by
  refine ⟨⟨by norm_num, by norm_num, by norm_num⟩, ?_, by norm_num⟩
  norm_num [derivePrimaries, tryXyy, matVec, identityM]

/-- Claim C6, amended with equal white levels (the counterexample shows
unequal positive white levels land elsewhere): with the identity camera
matrix and all three white levels equal to a positive L, the derivation
succeeds and maps the white probe to the equal-energy point (1/3, 1/3). -/
theorem identity_white_spec (L : ℚ) (hL : 0 < L) :
    ∃ c, derivePrimaries identityM L L L = some c ∧ c.white = (1/3, 1/3) := by
  have hL0 : L ≠ 0 := ne_of_gt hL
  have h3 : L + L + L ≠ 0 := by
    intro h
    exact hL0 (by linarith)
  have hw : L / (L + L + L) = 1 / 3 := by
    rw [show L + L + L = L * 3 from by ring, div_mul_eq_div_div, div_self hL0]
  refine ⟨{ red := (1, 0), green := (0, 1), blue := (0, 0), white := (1/3, 1/3) }, ?_, rfl⟩
  simp only [derivePrimaries, tryXyy, matVec, identityM]
  norm_num [hL0, h3, hw, div_self hL0]

theorem identity_white_spec_witness :
    0 < (5 : ℚ) ∧
    ∃ c, derivePrimaries identityM 5 5 5 = some c ∧ c.white = (1/3, 1/3) :=
  ⟨by norm_num, identity_white_spec 5 (by norm_num)⟩

/-! ### Claim C9: the four probe vectors -/

/-- Claim C9: a successful derivation probes exactly the four columns
(R,0,0), (0,G,0), (0,0,B), (R,G,B) through the camera matrix and attaches
their chromaticities as the red, green, blue and white primaries: each
attached pair is the first two components of the corresponding matrix
column (scaled by the white level) divided by the component sum. -/
theorem derive_primaries_probes (m : Matrix3x3f) (R G B : ℚ) (c : Chromaticities)
    (h : derivePrimaries m R G B = some c) :
    c.red = ((m.m00 * R) / (m.m00 * R + m.m10 * R + m.m20 * R),
             (m.m10 * R) / (m.m00 * R + m.m10 * R + m.m20 * R)) ∧
    c.green = ((m.m01 * G) / (m.m01 * G + m.m11 * G + m.m21 * G),
               (m.m11 * G) / (m.m01 * G + m.m11 * G + m.m21 * G)) ∧
    c.blue = ((m.m02 * B) / (m.m02 * B + m.m12 * B + m.m22 * B),
              (m.m12 * B) / (m.m02 * B + m.m12 * B + m.m22 * B)) ∧
    c.white = ((m.m00 * R + m.m01 * G + m.m02 * B) /
                 (m.m00 * R + m.m01 * G + m.m02 * B + (m.m10 * R + m.m11 * G + m.m12 * B) +
                  (m.m20 * R + m.m21 * G + m.m22 * B)),
               (m.m10 * R + m.m11 * G + m.m12 * B) /
                 (m.m00 * R + m.m01 * G + m.m02 * B + (m.m10 * R + m.m11 * G + m.m12 * B) +
                  (m.m20 * R + m.m21 * G + m.m22 * B))) := by
  simp only [derivePrimaries] at h
  obtain ⟨r, hr, h2⟩ := Option.bind_eq_some.mp h
  obtain ⟨g, hg, h3⟩ := Option.bind_eq_some.mp h2
  obtain ⟨b, hb, h4⟩ := Option.bind_eq_some.mp h3
  obtain ⟨w, hw, h5⟩ := Option.bind_eq_some.mp h4
  cases h5
  simp only [tryXyy, matVec] at hr hg hb hw
  split_ifs at hr hg hb hw
  cases hr
  cases hg
  cases hb
  cases hw
  refine ⟨?_, ?_, ?_, ?_⟩ <;> norm_num

theorem derive_primaries_probes_witness :
    derivePrimaries identityM 1 2 3 =
      some { red := (1, 0), green := (0, 1), blue := (0, 0), white := (1/6, 1/3) } ∧
    (({ red := (1, 0), green := (0, 1), blue := (0, 0),
        white := ((1/6 : ℚ), (1/3 : ℚ)) } : Chromaticities).red =
      ((identityM.m00 * 1) / (identityM.m00 * 1 + identityM.m10 * 1 + identityM.m20 * 1),
       (identityM.m10 * 1) / (identityM.m00 * 1 + identityM.m10 * 1 + identityM.m20 * 1)) ∧
     ({ red := (1, 0), green := (0, 1), blue := (0, 0),
        white := ((1/6 : ℚ), (1/3 : ℚ)) } : Chromaticities).green =
      ((identityM.m01 * 2) / (identityM.m01 * 2 + identityM.m11 * 2 + identityM.m21 * 2),
       (identityM.m11 * 2) / (identityM.m01 * 2 + identityM.m11 * 2 + identityM.m21 * 2)) ∧
     ({ red := (1, 0), green := (0, 1), blue := (0, 0),
        white := ((1/6 : ℚ), (1/3 : ℚ)) } : Chromaticities).blue =
      ((identityM.m02 * 3) / (identityM.m02 * 3 + identityM.m12 * 3 + identityM.m22 * 3),
       (identityM.m12 * 3) / (identityM.m02 * 3 + identityM.m12 * 3 + identityM.m22 * 3)) ∧
     ({ red := (1, 0), green := (0, 1), blue := (0, 0),
        white := ((1/6 : ℚ), (1/3 : ℚ)) } : Chromaticities).white =
      ((identityM.m00 * 1 + identityM.m01 * 2 + identityM.m02 * 3) /
         (identityM.m00 * 1 + identityM.m01 * 2 + identityM.m02 * 3 +
          (identityM.m10 * 1 + identityM.m11 * 2 + identityM.m12 * 3) +
          (identityM.m20 * 1 + identityM.m21 * 2 + identityM.m22 * 3)),
       (identityM.m10 * 1 + identityM.m11 * 2 + identityM.m12 * 3) /
         (identityM.m00 * 1 + identityM.m01 * 2 + identityM.m02 * 3 +
          (identityM.m10 * 1 + identityM.m11 * 2 + identityM.m12 * 3) +
          (identityM.m20 * 1 + identityM.m21 * 2 + identityM.m22 * 3)))) :=
  ⟨by norm_num [derivePrimaries, tryXyy, matVec, identityM],
    derive_primaries_probes identityM 1 2 3 _
      (by norm_num [derivePrimaries, tryXyy, matVec, identityM])⟩

/-! ### Claim C3 witness -/

theorem crops_size_to_bounds_spec_witness :
    (cropsEx 3 + cropsEx 1 ≤ 10 ∧ cropsEx 0 + cropsEx 2 ≤ 12) ∧
    ((crops_size_to_bounds cropsEx 10 12).position = ((cropsEx 3 : Int), (cropsEx 0 : Int)) ∧
      ((crops_size_to_bounds cropsEx 10 12).size.1 : Int) =
        (10 : Int) - (cropsEx 3 : Int) - (cropsEx 1 : Int) ∧
      ((crops_size_to_bounds cropsEx 10 12).size.2 : Int) =
        (12 : Int) - (cropsEx 0 : Int) - (cropsEx 2 : Int) ∧
      crops_size_to_bounds (fun _ => 0) 10 12 = { position := (0, 0), size := (10, 12) }) :=
  ⟨⟨by decide, by decide⟩,
    crops_size_to_bounds_spec cropsEx 10 12 (by decide) (by decide)⟩

end Raw2Exr
